import Mathlib

/-!
Verification of the scheduling core of the Accountability time-tracking
application.

Timestamps are modelled as `Nat` values: whole minutes elapsed since a
fixed local midnight.  The source manipulates naive `datetime` values only through
comparisons, truncation to the hour (`datetime(y, m, d, h, 0, 0)`),
truncation to the day (`datetime(y, m, d, 0, 0, 0)`), and one-hour steps
(`timedelta(hours=1)`); all of these are minute-resolution operations, and
naive datetimes ordered by time are order-isomorphic to their minute count,
so this embedding is faithful for every property studied here.  Under the
chosen epoch, `2024-01-01T00:00` is minute `0`, an hour is `60` and a day
is `1440`, so for example `2024-01-01T14:30` is minute `870`.

Each definition carries a comment naming the Python function of the
repository it translates.
-/

namespace Accountability


/-- `datetime(t.year, t.month, t.day, t.hour, 0, 0)`: truncate a timestamp
to its hour by zeroing the minutes within the hour. -/
def floorHour (t : Nat) : Nat := t / 60 * 60

/-- `datetime(t.year, t.month, t.day, 0, 0, 0)`: truncate a timestamp to the
start of its day. -/
def dayStart (t : Nat) : Nat := t / 1440 * 1440

/-- The `while current <= end_hour` loop of `get_hours_between`
(`accountability/utils/time_utils.py`), embedded structurally with an
explicit upper bound `fuel` on the number of loop iterations;
`get_hours_between` supplies a bound that is provably sufficient
(`hoursWhile_spec`), so the loop always terminates by its own condition and
never by fuel exhaustion. -/
def hoursWhile : Nat → Nat → Nat → List Nat
  | 0, _, _ => []
  | fuel + 1, current, endHour =>
    if current ≤ endHour then current :: hoursWhile fuel (current + 60) endHour
    else []

/-- `get_hours_between(start_time, end_time)` from
`accountability/utils/time_utils.py`: floor both ends to the hour, then
collect `current` while `current <= end_hour`, stepping by one hour. -/
def get_hours_between (startTime endTime : Nat) : List Nat :=
  let startHour := floorHour startTime
  let endHour := floorHour endTime
  hoursWhile (endHour + 1 - startHour) startHour endHour

theorem hoursWhile_spec (fuel : Nat) : ∀ c e : Nat, e + 1 - c ≤ fuel →
    hoursWhile fuel c e =
      if c ≤ e then List.range' c ((e - c) / 60 + 1) 60 else [] := by
  induction fuel with
  | zero =>
    intro c e hle
    have hce : ¬ c ≤ e := by omega
    simp [hoursWhile, hce]
  | succ n ih =>
    intro c e hle
    by_cases hce : c ≤ e
    · rw [hoursWhile, if_pos hce, if_pos hce, ih (c + 60) e (by omega)]
      by_cases h2 : c + 60 ≤ e
      · rw [if_pos h2]
        have hdiv : (e - c) / 60 + 1 = ((e - (c + 60)) / 60 + 1) + 1 := by omega
        simp [hdiv, List.range'_succ]
      · rw [if_neg h2]
        have hdiv : (e - c) / 60 + 1 = 1 := by omega
        rw [hdiv, List.range'_one]
    · rw [hoursWhile, if_neg hce, if_neg hce]

/-- Closed form of `get_hours_between` on a non-degenerate range. -/
theorem get_hours_between_eq (s e : Nat) (h : floorHour s ≤ floorHour e) :
    get_hours_between s e =
      List.range' (floorHour s) ((floorHour e - floorHour s) / 60 + 1) 60 := by
  rw [get_hours_between]
  rw [hoursWhile_spec _ _ _ (Nat.le_refl _)]
  rw [if_pos h]

/-- `floorHour` is monotone. -/
theorem floorHour_mono {s e : Nat} (h : s ≤ e) : floorHour s ≤ floorHour e :=
  Nat.mul_le_mul_right 60 (Nat.div_le_div_right h)

/-- C4 fails as stated: `get_hours_between` floors both endpoints before
comparing, so for `start = 14:30` (minute 870) and `end = 14:10` (minute
850) we have `start > end` yet the result is the non-empty `[14:00]`
(minute 840), not the empty sequence. -/
theorem C4_counterexample :
    870 > 850 ∧ get_hours_between 870 850 = [840] ∧
    get_hours_between 870 850 ≠ [] := by
  refine ⟨by decide, by decide, by decide⟩

/-- C4 amended: `get_hours_between(start, end)` returns the empty sequence
(and never an error) exactly on ranges that are degenerate after flooring,
i.e. whenever `floor_to_hour(start) > floor_to_hour(end)`; when `start >
end` but the two share an hour floor, the single shared floored hour is
returned instead. -/
theorem C4_empty_on_floored_empty_range (s e : Nat)
    (h : floorHour e < floorHour s) : get_hours_between s e = [] := by
  rw [get_hours_between]
  have hz : floorHour e + 1 - floorHour s = 0 := by omega
  rw [hz]
  rfl

/-- Witness for `C4_empty_on_floored_empty_range` at `start = 14:30`
(minute 870), `end = 11:40` (minute 700). -/
theorem C4_empty_on_floored_empty_range_witness :
    floorHour 700 < floorHour 870 ∧ get_hours_between 870 700 = [] :=
  ⟨by decide, C4_empty_on_floored_empty_range 870 700 (by decide)⟩

/-- C5 fails as stated: the claimed length `floor((end - start) in hours) +
1` is wrong when the minutes of `start` exceed the minutes of `end`.  For
`start = 14:30` (minute 870) and `end = 15:10` (minute 910) the duration is
40 minutes, so the claimed length is `0 + 1 = 1`, but the code returns
`[14:00, 15:00]` of length `2`. -/
theorem C5_counterexample :
    870 ≤ 910 ∧ get_hours_between 870 910 = [840, 900] ∧
    (get_hours_between 870 910).length ≠ (910 - 870) / 60 + 1 := by
  refine ⟨by decide, by decide, by decide⟩

/-- C5 amended: for `start ≤ end` the result of `get_hours_between` is the
arithmetic progression of step one hour from `floor_to_hour(start)` to
`floor_to_hour(end)` inclusive, and its length is
`(floor_to_hour(end) - floor_to_hour(start)) / 1h + 1` — the difference of
the floored endpoints, not the floor of the duration. -/
theorem C5_enumerates_floored_hours (s e : Nat) (h : s ≤ e) :
    get_hours_between s e =
      List.range' (floorHour s) ((floorHour e - floorHour s) / 60 + 1) 60 ∧
    (get_hours_between s e).length = (floorHour e - floorHour s) / 60 + 1 := by
  have hm := floorHour_mono h
  have he := get_hours_between_eq s e hm
  exact ⟨he, by rw [he, List.length_range']⟩

/-- Witness for `C5_enumerates_floored_hours` at `start = 14:30` (minute
870), `end = 16:10` (minute 970). -/
theorem C5_enumerates_floored_hours_witness :
    get_hours_between 870 970 =
      List.range' (floorHour 870) ((floorHour 970 - floorHour 870) / 60 + 1) 60 ∧
    (get_hours_between 870 970).length = (floorHour 970 - floorHour 870) / 60 + 1 :=
  C5_enumerates_floored_hours 870 970 (by decide)

/-- One row of the `activities` table created by `Database._create_tables`
(`accountability/database.py`): `timestamp` is the wall-clock time of the
write (the spec's `recorded_at`) and `hour` is the slot key. -/
structure ActivityRow where
  id : Nat
  timestamp : Nat
  hour : Nat
  activity : String
deriving DecidableEq

/-- The `activities` table: physical rows in insertion order, plus the
AUTOINCREMENT counter supplying the next `id`. -/
structure DB where
  rows : List ActivityRow
  nextId : Nat
deriving DecidableEq

/-- A database with no activity rows. -/
def emptyDB : DB := ⟨[], 1⟩

/-- `SELECT hour FROM activities ORDER BY hour DESC LIMIT 1`: the maximum
`hour` over all rows, if any row exists. -/
def maxHour : List ActivityRow → Option Nat
  | [] => none
  | r :: rs =>
    match maxHour rs with
    | none => some r.hour
    | some m => some (max r.hour m)

/-- `Database.get_last_activity_time` (`accountability/database.py`). -/
def get_last_activity_time (db : DB) : Option Nat := maxHour db.rows

/-- `Database.has_activity_for_hour(hour)`: `COUNT(*) > 0` over rows whose
`hour` column matches the argument exactly. -/
def has_activity_for_hour (db : DB) (hour : Nat) : Bool :=
  db.rows.any (fun r => r.hour == hour)

/-- `Database.add_activity(hour, activity_text)` executed at wall-clock
time `now`: `SELECT id FROM activities WHERE hour = ?`; if a row exists its
`timestamp` and `activity` are overwritten in place (`UPDATE ... WHERE id =
?`), otherwise a fresh row is inserted. -/
def add_activity (db : DB) (now hour : Nat) (text : String) : DB :=
  match db.rows.find? (fun r => r.hour == hour) with
  | some existing =>
    { db with
        rows := db.rows.map (fun r =>
          if r.id == existing.id then
            { r with timestamp := now, activity := text }
          else r) }
  | none =>
    { db with
        rows := db.rows ++ [⟨db.nextId, now, hour, text⟩],
        nextId := db.nextId + 1 }

/-- The store invariant of the spec: at most one current row per distinct
`hour` value. -/
def AtMostOnePerHour (db : DB) : Prop :=
  ∀ h : Nat, db.rows.countP (fun r => r.hour == h) ≤ 1

/-- Number of rows stored for a given hour slot. -/
def hourCount (db : DB) (h : Nat) : Nat :=
  db.rows.countP (fun r => r.hour == h)

theorem hourCount_add_self (db : DB) (now hour : Nat) (text : String) :
    hourCount (add_activity db now hour text) hour =
      if has_activity_for_hour db hour then hourCount db hour
      else hourCount db hour + 1 := by
  unfold hourCount add_activity has_activity_for_hour
  cases hf : db.rows.find? (fun r => r.hour == hour) with
  | some existing =>
    have h1 := List.find?_some hf
    have hany : db.rows.any (fun r => r.hour == hour) = true :=
      List.any_eq_true.mpr ⟨existing, List.mem_of_find?_eq_some hf, h1⟩
    simp only [hany, if_pos]
    rw [List.countP_map]
    apply List.countP_congr
    intro r _
    by_cases hid : r.id = existing.id <;> simp [hid]
  | none =>
    have hany : db.rows.any (fun r => r.hour == hour) = false := by
      rw [List.any_eq_false]
      intro r hr
      exact List.find?_eq_none.mp hf r hr
    simp [hany, List.countP_append]

theorem hourCount_add_other (db : DB) (now hour : Nat) (text : String)
    (h' : Nat) (hne : h' ≠ hour) :
    hourCount (add_activity db now hour text) h' = hourCount db h' := by
  unfold hourCount add_activity
  cases hf : db.rows.find? (fun r => r.hour == hour) with
  | some existing =>
    simp only
    rw [List.countP_map]
    apply List.countP_congr
    intro r _
    by_cases hid : r.id = existing.id <;> simp [hid]
  | none =>
    have : (⟨db.nextId, now, hour, text⟩ : ActivityRow).hour ≠ h' := by
      simpa using fun h => (hne h.symm)
    simp [List.countP_append, this]

theorem has_activity_iff_hourCount_pos (db : DB) (h : Nat) :
    has_activity_for_hour db h = true ↔ 0 < hourCount db h := by
  unfold has_activity_for_hour hourCount
  rw [List.countP_pos_iff, List.any_eq_true]

theorem add_activity_rows_length (db : DB) (now hour : Nat) (text : String) :
    (add_activity db now hour text).rows.length =
      if has_activity_for_hour db hour then db.rows.length
      else db.rows.length + 1 := by
  unfold add_activity has_activity_for_hour
  cases hf : db.rows.find? (fun r => r.hour == hour) with
  | some existing =>
    have h1 := List.find?_some hf
    have hany : db.rows.any (fun r => r.hour == hour) = true :=
      List.any_eq_true.mpr ⟨existing, List.mem_of_find?_eq_some hf, h1⟩
    simp [hany]
  | none =>
    have hany : db.rows.any (fun r => r.hour == hour) = false := by
      rw [List.any_eq_false]
      intro r hr
      exact List.find?_eq_none.mp hf r hr
    simp [hany]

theorem add_activity_ids_of_existing (db : DB) (now hour : Nat)
    (text : String) (hhas : has_activity_for_hour db hour = true) :
    (add_activity db now hour text).rows.map (fun r => r.id) =
      db.rows.map (fun r => r.id) := by
  unfold add_activity
  cases hf : db.rows.find? (fun r => r.hour == hour) with
  | some existing =>
    simp only [List.map_map]
    apply List.map_congr_left
    intro r _
    by_cases hid : r.id = existing.id <;> simp [hid]
  | none =>
    rcases List.any_eq_true.mp hhas with ⟨r, hr, hrh⟩
    exact absurd hrh (by simpa using List.find?_eq_none.mp hf r hr)

/-- C2: on a store with at most one current row per hour slot,
`add_activity` preserves that invariant; when a row for the hour already
exists the write happens in place (same row count, identical row ids) and
otherwise exactly one row is added; and two sequential upserts for the same
hour leave exactly one current row for that hour. -/
theorem C2_upsert_preserves_single_row_invariant
    (db : DB) (now hour : Nat) (text : String)
    (now2 : Nat) (text2 : String)
    (hinv : AtMostOnePerHour db) :
    AtMostOnePerHour (add_activity db now hour text) ∧
    (has_activity_for_hour db hour = true →
      (add_activity db now hour text).rows.length = db.rows.length ∧
      (add_activity db now hour text).rows.map (fun r => r.id) =
        db.rows.map (fun r => r.id)) ∧
    (has_activity_for_hour db hour = false →
      (add_activity db now hour text).rows.length = db.rows.length + 1) ∧
    hourCount (add_activity (add_activity db now hour text) now2 hour text2)
      hour = 1 := by
  have hself := hourCount_add_self db now hour text
  refine ⟨?_, ?_, ?_, ?_⟩
  · intro h
    by_cases hh : h = hour
    · subst hh
      show hourCount (add_activity db now h text) h ≤ 1
      rw [hself]
      by_cases hhas : has_activity_for_hour db h = true
      · rw [if_pos hhas]; exact hinv h
      · rw [if_neg hhas]
        have h0 : hourCount db h = 0 := by
          by_contra hne
          exact hhas ((has_activity_iff_hourCount_pos db h).mpr
            (Nat.pos_of_ne_zero hne))
        omega
    · show hourCount (add_activity db now hour text) h ≤ 1
      rw [hourCount_add_other db now hour text h hh]
      exact hinv h
  · intro hhas
    refine ⟨?_, add_activity_ids_of_existing db now hour text hhas⟩
    rw [add_activity_rows_length, if_pos hhas]
  · intro hhas
    rw [add_activity_rows_length, if_neg (by simp [hhas])]
  · have h2 := hourCount_add_self (add_activity db now hour text) now2 hour text2
    have h1pos : 0 < hourCount (add_activity db now hour text) hour := by
      rw [hself]
      by_cases hhas : has_activity_for_hour db hour
      · rw [if_pos hhas]
        exact (has_activity_iff_hourCount_pos db hour).mp hhas
      · rw [if_neg hhas]; omega
    have h1le : hourCount (add_activity db now hour text) hour ≤ 1 := by
      rw [hself]
      by_cases hhas : has_activity_for_hour db hour
      · rw [if_pos hhas]; exact hinv hour
      · rw [if_neg hhas]
        have h0 : hourCount db hour = 0 := by
          by_contra hne
          exact hhas ((has_activity_iff_hourCount_pos db hour).mpr
            (Nat.pos_of_ne_zero hne))
        omega
    have hhas1 : has_activity_for_hour (add_activity db now hour text) hour
        = true :=
      (has_activity_iff_hourCount_pos _ hour).mpr h1pos
    rw [h2, if_pos hhas1]
    omega

/-- Witness for `C2_upsert_preserves_single_row_invariant` on the empty
store, recording hour `09:00` (minute 540) twice. -/
theorem C2_upsert_preserves_single_row_invariant_witness :
    AtMostOnePerHour (add_activity emptyDB 545 540 "reading") ∧
    (has_activity_for_hour emptyDB 540 = true →
      (add_activity emptyDB 545 540 "reading").rows.length =
        emptyDB.rows.length ∧
      (add_activity emptyDB 545 540 "reading").rows.map (fun r => r.id) =
        emptyDB.rows.map (fun r => r.id)) ∧
    (has_activity_for_hour emptyDB 540 = false →
      (add_activity emptyDB 545 540 "reading").rows.length =
        emptyDB.rows.length + 1) ∧
    hourCount (add_activity (add_activity emptyDB 545 540 "reading") 550 540
      "writing") 540 = 1 :=
  C2_upsert_preserves_single_row_invariant emptyDB 545 540 "reading" 550
    "writing" (fun h => by simp [AtMostOnePerHour, emptyDB])

/-- Process-local state of `ActivityScheduler` (`accountability/scheduler.py`).
The Qt signal `missed_hours_changed` is modelled by `emissions`, the list of
arguments of every `emit` call so far, in order.  `last_recorded_time` is
`none` both before `initialize` first assigns the attribute and when the
attribute holds Python `None` (the two states are indistinguishable to the
code paths modelled here, which all assign it before reading it). -/
structure Scheduler where
  last_check_time : Option Nat
  current_hour : Option Nat
  is_initialized : Bool
  missed_hours_count : Nat
  last_recorded_time : Option Nat
  emissions : List Nat
deriving DecidableEq

/-- The state built by `ActivityScheduler.__init__`. -/
def Scheduler.fresh : Scheduler :=
  { last_check_time := none, current_hour := none, is_initialized := false,
    missed_hours_count := 0, last_recorded_time := none, emissions := [] }

/-- The `while check_hour <= current_hour` loop inside
`ActivityScheduler.get_missed_hours`: collect every hour of the range with
no database entry.  As with `hoursWhile`, `fuel` is an explicit iteration
bound and `missedHoursFrom` supplies a sufficient one. -/
def missedWhile (db : DB) : Nat → Nat → Nat → List Nat
  | 0, _, _ => []
  | fuel + 1, checkHour, currentHour =>
    if checkHour ≤ currentHour then
      if has_activity_for_hour db checkHour then
        missedWhile db fuel (checkHour + 60) currentHour
      else checkHour :: missedWhile db fuel (checkHour + 60) currentHour
    else []

/-- The missed-hours loop of `get_missed_hours`, run from `checkHour` up to
and including `currentHour`. -/
def missedHoursFrom (db : DB) (checkHour currentHour : Nat) : List Nat :=
  missedWhile db (currentHour + 1 - checkHour) checkHour currentHour

/-- The start of the reconciliation window chosen by `get_missed_hours`:
one hour past `last_recorded_time` when present, else the start of today. -/
def startCheckHour (lastRecorded : Option Nat) (now : Nat) : Nat :=
  match lastRecorded with
  | some t => t + 60
  | none => dayStart now

/-- Body of `ActivityScheduler.get_missed_hours` after the initialization
check.  The guard `if True or current_hour != self.current_hour or ...` in
the source is literally always true, so the `return []` fallback at the end
of the method is unreachable and the body always recomputes from the store.
Returns the missed-hours list together with the updated scheduler state. -/
def getMissedHoursCore (s : Scheduler) (db : DB) (now : Nat) :
    List Nat × Scheduler :=
  let currentHour := floorHour now
  let s1 : Scheduler :=
    { s with current_hour := some currentHour, last_check_time := some now }
  let checkHour := startCheckHour s1.last_recorded_time now
  let missed := missedHoursFrom db checkHour currentHour
  let s2 : Scheduler :=
    if missed.length ≠ s1.missed_hours_count then
      { s1 with missed_hours_count := missed.length,
                emissions := s1.emissions ++ [missed.length] }
    else s1
  (missed, s2)

/-- `ActivityScheduler.initialize`: load the last recorded hour from the
database, defaulting to the floor of `now` when the store is empty, run an
immediate missed-hours check (through `get_missed_hours`, whose body is
`getMissedHoursCore` because `is_initialized` is already true at that
point), then set `missed_hours_count` and emit it unconditionally. -/
def initializeScheduler (s : Scheduler) (db : DB) (now : Nat) : Scheduler :=
  let lastRec : Option Nat :=
    match get_last_activity_time db with
    | none => some (floorHour now)
    | some t => some t
  let s1 : Scheduler :=
    { s with last_recorded_time := lastRec, last_check_time := some now,
             current_hour := some (floorHour now), is_initialized := true }
  let p := getMissedHoursCore s1 db now
  { p.2 with missed_hours_count := p.1.length,
             emissions := p.2.emissions ++ [p.1.length] }

/-- `ActivityScheduler.get_missed_hours`: run `initialize` first if needed,
then the recomputation body. -/
def get_missed_hours (s : Scheduler) (db : DB) (now : Nat) :
    List Nat × Scheduler :=
  let s1 := if s.is_initialized then s else initializeScheduler s db now
  getMissedHoursCore s1 db now

/-- `ActivityScheduler.refresh_schedule`: reload `last_recorded_time` from
the store (without the current-hour default of `initialize`), recompute via
`get_missed_hours`, and emit if the count changed.  (The recompute inside
`get_missed_hours` already synchronizes `missed_hours_count`, so the
trailing conditional here never fires; it is embedded faithfully anyway.) -/
def refresh_schedule (s : Scheduler) (db : DB) (now : Nat) : Scheduler :=
  let s1 : Scheduler :=
    { s with last_recorded_time := get_last_activity_time db,
             last_check_time := some now,
             current_hour := some (floorHour now) }
  let p := get_missed_hours s1 db now
  if p.1.length ≠ p.2.missed_hours_count then
    { p.2 with missed_hours_count := p.1.length,
               emissions := p.2.emissions ++ [p.1.length] }
  else p.2

/-- Python `max(hours)` over a non-empty list, `none` when empty. -/
def listMax : List Nat → Option Nat
  | [] => none
  | x :: xs =>
    match listMax xs with
    | none => some x
    | some m => some (max x m)

/-- `ActivityScheduler.record_activity(hours, activity_text)` at wall-clock
time `now`: upsert every hour of the list, advance `last_recorded_time` to
the maximum written hour when it exceeds the previous value (or when no
value was recorded), then refresh the schedule.  Returns the new scheduler
state and database. -/
def record_activity (s : Scheduler) (db : DB) (now : Nat)
    (hours : List Nat) (text : String) : Scheduler × DB :=
  let db1 := hours.foldl (fun d h => add_activity d now h text) db
  let s1 : Scheduler :=
    match listMax hours with
    | none => s
    | some latest =>
      match s.last_recorded_time with
      | none => { s with last_recorded_time := some latest }
      | some prev =>
        if latest > prev then { s with last_recorded_time := some latest }
        else s
  (refresh_schedule s1 db1 now, db1)

theorem core_fst (s : Scheduler) (db : DB) (now : Nat) :
    (getMissedHoursCore s db now).1 =
      missedHoursFrom db (startCheckHour s.last_recorded_time now)
        (floorHour now) := rfl

theorem core_snd_lrt (s : Scheduler) (db : DB) (now : Nat) :
    (getMissedHoursCore s db now).2.last_recorded_time =
      s.last_recorded_time := by
  unfold getMissedHoursCore
  dsimp only
  split <;> rfl

theorem core_snd_init (s : Scheduler) (db : DB) (now : Nat) :
    (getMissedHoursCore s db now).2.is_initialized = s.is_initialized := by
  unfold getMissedHoursCore
  dsimp only
  split <;> rfl

theorem core_snd_count (s : Scheduler) (db : DB) (now : Nat) :
    (getMissedHoursCore s db now).2.missed_hours_count =
      (getMissedHoursCore s db now).1.length := by
  unfold getMissedHoursCore
  dsimp only
  split
  · rfl
  · next h => exact (not_not.mp h).symm

theorem core_emissions (s : Scheduler) (db : DB) (now : Nat) :
    (getMissedHoursCore s db now).2.emissions =
      if (getMissedHoursCore s db now).1.length = s.missed_hours_count
      then s.emissions
      else s.emissions ++ [(getMissedHoursCore s db now).1.length] := by
  unfold getMissedHoursCore
  dsimp only
  split
  · rfl
  · next h => rw [if_pos (not_not.mp h)]

theorem initializeScheduler_lrt (s : Scheduler) (db : DB) (now : Nat) :
    (initializeScheduler s db now).last_recorded_time =
      match get_last_activity_time db with
      | none => some (floorHour now)
      | some t => some t := by
  unfold initializeScheduler
  dsimp only
  rw [core_snd_lrt]

theorem initializeScheduler_init (s : Scheduler) (db : DB) (now : Nat) :
    (initializeScheduler s db now).is_initialized = true := by
  unfold initializeScheduler
  dsimp only
  rw [core_snd_init]

theorem gmh_initialized (s : Scheduler) (db : DB) (now : Nat)
    (h : s.is_initialized = true) :
    get_missed_hours s db now = getMissedHoursCore s db now := by
  unfold get_missed_hours
  rw [h]
  rfl

theorem gmh_uninitialized (s : Scheduler) (db : DB) (now : Nat)
    (h : s.is_initialized = false) :
    get_missed_hours s db now =
      getMissedHoursCore (initializeScheduler s db now) db now := by
  unfold get_missed_hours
  rw [h]
  rfl

theorem refresh_lrt (s : Scheduler) (db : DB) (now : Nat)
    (h : s.is_initialized = true) :
    (refresh_schedule s db now).last_recorded_time =
      get_last_activity_time db := by
  unfold refresh_schedule
  dsimp only
  have h1 : ({ s with last_recorded_time := get_last_activity_time db, last_check_time := some now, current_hour := some (floorHour now) } : Scheduler).is_initialized = true := h
  rw [gmh_initialized _ _ _ h1]
  split <;> rw [core_snd_lrt]

theorem refresh_init (s : Scheduler) (db : DB) (now : Nat)
    (h : s.is_initialized = true) :
    (refresh_schedule s db now).is_initialized = true := by
  unfold refresh_schedule
  dsimp only
  have h1 : ({ s with last_recorded_time := get_last_activity_time db, last_check_time := some now, current_hour := some (floorHour now) } : Scheduler).is_initialized = true := h
  rw [gmh_initialized _ _ _ h1]
  split <;> rw [core_snd_init] <;> exact h1

theorem missedHoursFrom_empty_of_lt (db : DB) (c e : Nat) (h : e < c) :
    missedHoursFrom db c e = [] := by
  unfold missedHoursFrom
  have hz : e + 1 - c = 0 := by omega
  rw [hz]
  rfl

theorem missedWhile_filter (db : DB) (fuel : Nat) : ∀ c e : Nat,
    missedWhile db fuel c e =
      (hoursWhile fuel c e).filter (fun x => !has_activity_for_hour db x) := by
  induction fuel with
  | zero => intro c e; rfl
  | succ n ih =>
    intro c e
    rw [missedWhile, hoursWhile]
    by_cases hce : c ≤ e
    · rw [if_pos hce, if_pos hce]
      by_cases hhas : has_activity_for_hour db c = true
      · rw [if_pos hhas, List.filter_cons]
        simp only [hhas]
        exact ih (c + 60) e
      · have hf : has_activity_for_hour db c = false := by
          simpa using hhas
        rw [if_neg (by simp [hf]), List.filter_cons]
        simp only [hf]
        rw [ih (c + 60) e]
        rfl
    · rw [if_neg hce, if_neg hce]
      rfl

theorem mem_range'_60 (c k h' : Nat) :
    h' ∈ List.range' c k 60 ↔
      (c ≤ h' ∧ h' < c + 60 * k ∧ (h' - c) % 60 = 0) := by
  rw [List.mem_range']
  constructor
  · rintro ⟨i, hi, rfl⟩
    omega
  · rintro ⟨h1, h2, h3⟩
    exact ⟨(h' - c) / 60, by omega, by omega⟩

/-- Membership in the missed-hours loop result: exactly the hour-stepped
points of `[c, e]` that have no database entry. -/
theorem mem_missedHoursFrom (db : DB) (c e h' : Nat) :
    h' ∈ missedHoursFrom db c e ↔
      (c ≤ h' ∧ h' ≤ e ∧ (h' - c) % 60 = 0 ∧
        has_activity_for_hour db h' = false) := by
  rw [missedHoursFrom, missedWhile_filter, List.mem_filter,
    hoursWhile_spec _ _ _ (Nat.le_refl _)]
  by_cases hce : c ≤ e
  · rw [if_pos hce, mem_range'_60]
    constructor
    · rintro ⟨⟨h1, h2, h3⟩, h4⟩
      exact ⟨h1, by omega, h3, by simpa using h4⟩
    · rintro ⟨h1, h2, h3, h4⟩
      exact ⟨⟨h1, by omega, h3⟩, by simp [h4]⟩
  · rw [if_neg hce]
    simp only [List.not_mem_nil, false_and, false_iff]
    rintro ⟨h1, h2, _⟩
    omega

theorem floorHour_idem (t : Nat) : floorHour (floorHour t) = floorHour t := by
  unfold floorHour
  omega

theorem floorHour_dayStart (t : Nat) :
    floorHour (dayStart t) = dayStart t := by
  unfold floorHour dayStart
  omega

theorem has_activity_emptyDB (h : Nat) :
    has_activity_for_hour emptyDB h = false := rfl

theorem missedHoursFrom_emptyDB (c e : Nat) :
    missedHoursFrom emptyDB c e = hoursWhile (e + 1 - c) c e := by
  rw [missedHoursFrom, missedWhile_filter]
  apply List.filter_eq_self.mpr
  intro x _
  rfl

/-- C3: `get_missed_hours` is an idempotent, read-only projection — calling
it twice in a row against the same store and the same current time returns
the same ordered list the second time as the first. -/
theorem C3_get_missed_hours_idempotent (s : Scheduler) (db : DB) (now : Nat) :
    (get_missed_hours ((get_missed_hours s db now).2) db now).1 =
      (get_missed_hours s db now).1 := by
  by_cases hinit : s.is_initialized = true
  · rw [gmh_initialized s db now hinit]
    have h2 : (getMissedHoursCore s db now).2.is_initialized = true := by
      rw [core_snd_init]; exact hinit
    rw [gmh_initialized _ db now h2, core_fst, core_fst, core_snd_lrt]
  · have hfalse : s.is_initialized = false := by simpa using hinit
    rw [gmh_uninitialized s db now hfalse]
    have h2 : (getMissedHoursCore (initializeScheduler s db now) db
        now).2.is_initialized = true := by
      rw [core_snd_init]; exact initializeScheduler_init s db now
    rw [gmh_initialized _ db now h2, core_fst, core_fst, core_snd_lrt]

/-- C6: when `last_recorded_time` is present and its successor hour is
still in the future of the current floored hour, `get_missed_hours` returns
the empty list (nothing is due yet). -/
theorem C6_not_yet_due (s : Scheduler) (db : DB) (now t : Nat)
    (hinit : s.is_initialized = true)
    (hlrt : s.last_recorded_time = some t)
    (hnotdue : floorHour now < t + 60) :
    (get_missed_hours s db now).1 = [] := by
  rw [gmh_initialized s db now hinit, core_fst, hlrt]
  exact missedHoursFrom_empty_of_lt db _ _ hnotdue

/-- Witness for `C6_not_yet_due`: `last_recorded_hour = 09:00` (minute
540), `now = 09:40` (minute 580) — the spec's own boundary scenario. -/
theorem C6_not_yet_due_witness :
    (⟨some 580, some 540, true, 0, some 540, []⟩ : Scheduler).is_initialized
        = true ∧
    (⟨some 580, some 540, true, 0, some 540, []⟩ :
        Scheduler).last_recorded_time = some 540 ∧
    floorHour 580 < 540 + 60 ∧
    (get_missed_hours (⟨some 580, some 540, true, 0, some 540, []⟩ :
        Scheduler) emptyDB 580).1 = [] :=
  ⟨by decide, by decide, by decide,
    C6_not_yet_due _ emptyDB 580 540 (by decide) (by decide) (by decide)⟩

/-- C1 fails as stated: with an empty store and `now = 2024-01-01T14:30`
(minute 870), the first `get_missed_hours` call initializes the scheduler,
and `initialize` replaces the absent last-recorded time with the *current
hour floor* (not the start of the day), so the call returns `[]`, not the
15 hours 00:00..14:00. -/
theorem C1_counterexample :
    (get_missed_hours Scheduler.fresh emptyDB 870).1 = [] ∧
    (get_missed_hours Scheduler.fresh emptyDB 870).1 ≠
      List.range' 0 15 60 := by
  refine ⟨by decide, by decide⟩

/-- C1 amended: on an empty store, the day-start fallback of
`get_missed_hours` applies only when `last_recorded_time` is actually
absent at check time — a state produced by `refresh_schedule` (which
reloads it from the store with no default), not by `initialize` (which
defaults it to the current hour floor).  In the fallback state the call
returns every hour from 00:00 of the current day through the current hour
inclusive; on a freshly initialized scheduler it returns `[]`. -/
theorem C1_day_start_fallback (now : Nat) :
    (get_missed_hours Scheduler.fresh emptyDB now).1 = [] ∧
    (get_missed_hours
        (refresh_schedule (initializeScheduler Scheduler.fresh emptyDB now)
          emptyDB now) emptyDB now).1 =
      get_hours_between (dayStart now) (floorHour now) := by
  constructor
  · rw [gmh_uninitialized _ emptyDB now rfl, core_fst,
      initializeScheduler_lrt]
    show missedHoursFrom emptyDB (floorHour now + 60) (floorHour now) = []
    exact missedHoursFrom_empty_of_lt _ _ _ (by omega)
  · have hinit1 : (initializeScheduler Scheduler.fresh emptyDB
        now).is_initialized = true := initializeScheduler_init _ _ _
    have hrinit : (refresh_schedule (initializeScheduler Scheduler.fresh
        emptyDB now) emptyDB now).is_initialized = true :=
      refresh_init _ emptyDB now hinit1
    have hrlrt : (refresh_schedule (initializeScheduler Scheduler.fresh
        emptyDB now) emptyDB now).last_recorded_time = none :=
      refresh_lrt _ emptyDB now hinit1
    rw [gmh_initialized _ _ _ hrinit, core_fst, hrlrt]
    show missedHoursFrom emptyDB (dayStart now) (floorHour now) = _
    rw [missedHoursFrom_emptyDB, get_hours_between]
    rw [floorHour_dayStart, floorHour_idem]

/-- A store with one activity recorded for `09:00` (minute 540). -/
def dbC9 : DB := ⟨[⟨1, 542, 540, "breakfast"⟩], 2⟩

/-- C9 fails as stated: `initialize` emits the missed-hours count
unconditionally after its initial check.  With one entry at 09:00 and `now
= 14:30` (minute 870), the initial check inside `initialize` finds 5 missed
hours (10:00..14:00) and emits `5` (count changed from 0); `initialize`
then emits `5` again even though the count carried by the previous emission
is identical — so the trace is `[5, 5]`, refuting "never emitted when the
count is unchanged". -/
theorem C9_counterexample :
    (initializeScheduler Scheduler.fresh dbC9 870).emissions = [5, 5] ∧
    (initializeScheduler Scheduler.fresh dbC9 870).missed_hours_count = 5 := by
  refine ⟨by decide, by decide⟩

/-- C9 amended: `get_missed_hours` (on an initialized scheduler) and
`refresh_schedule` emit the freshly computed count exactly when it differs
from the stored `missed_hours_count` (the count carried by the previous
emission); `initialize`, however, additionally emits its final count
unconditionally, so it always appends an emission — duplicating the value
when its internal check already emitted it. -/
theorem C9_emission_discipline (s : Scheduler) (db : DB) (now : Nat)
    (hinit : s.is_initialized = true) :
    ((get_missed_hours s db now).2.emissions =
      if (get_missed_hours s db now).1.length = s.missed_hours_count
      then s.emissions
      else s.emissions ++ [(get_missed_hours s db now).1.length]) ∧
    ((refresh_schedule s db now).emissions =
      if (refresh_schedule s db now).missed_hours_count =
          s.missed_hours_count
      then s.emissions
      else s.emissions ++ [(refresh_schedule s db now).missed_hours_count]) ∧
    (s.emissions.length + 1 ≤ (initializeScheduler s db now).emissions.length
      ∧ (initializeScheduler s db now).emissions.getLast? =
          some ((initializeScheduler s db now).missed_hours_count)) := by
  refine ⟨?_, ?_, ?_, ?_⟩
  · rw [gmh_initialized s db now hinit]
    exact core_emissions s db now
  · unfold refresh_schedule
    dsimp only
    have h1 : ({ s with last_recorded_time := get_last_activity_time db, last_check_time := some now, current_hour := some (floorHour now) } : Scheduler).is_initialized = true := hinit
    rw [gmh_initialized _ _ _ h1]
    have hcnt := core_snd_count ({ s with last_recorded_time := get_last_activity_time db, last_check_time := some now, current_hour := some (floorHour now) } : Scheduler) db now
    have hncond : ¬((getMissedHoursCore ({ s with last_recorded_time := get_last_activity_time db, last_check_time := some now, current_hour := some (floorHour now) } : Scheduler) db now).1.length ≠ (getMissedHoursCore ({ s with last_recorded_time := get_last_activity_time db, last_check_time := some now, current_hour := some (floorHour now) } : Scheduler) db now).2.missed_hours_count) := by
      rw [hcnt]
      exact fun hne => hne rfl
    rw [if_neg hncond, hcnt, core_emissions]
  · unfold initializeScheduler
    dsimp only
    rw [core_emissions, List.length_append]
    split <;> simp
  · unfold initializeScheduler
    dsimp only
    rw [List.getLast?_concat]

/-- Witness for `C9_emission_discipline` on an initialized scheduler with
one entry at `09:00` and `now = 14:30`. -/
theorem C9_emission_discipline_witness :
    ((get_missed_hours (initializeScheduler Scheduler.fresh dbC9 870) dbC9
        870).2.emissions =
      if (get_missed_hours (initializeScheduler Scheduler.fresh dbC9 870)
          dbC9 870).1.length =
        (initializeScheduler Scheduler.fresh dbC9 870).missed_hours_count
      then (initializeScheduler Scheduler.fresh dbC9 870).emissions
      else (initializeScheduler Scheduler.fresh dbC9 870).emissions ++
        [(get_missed_hours (initializeScheduler Scheduler.fresh dbC9 870)
          dbC9 870).1.length]) ∧
    ((refresh_schedule (initializeScheduler Scheduler.fresh dbC9 870) dbC9
        870).emissions =
      if (refresh_schedule (initializeScheduler Scheduler.fresh dbC9 870)
          dbC9 870).missed_hours_count =
        (initializeScheduler Scheduler.fresh dbC9 870).missed_hours_count
      then (initializeScheduler Scheduler.fresh dbC9 870).emissions
      else (initializeScheduler Scheduler.fresh dbC9 870).emissions ++
        [(refresh_schedule (initializeScheduler Scheduler.fresh dbC9 870)
          dbC9 870).missed_hours_count]) ∧
    ((initializeScheduler Scheduler.fresh dbC9 870).emissions.length + 1 ≤
      (initializeScheduler (initializeScheduler Scheduler.fresh dbC9 870)
        dbC9 870).emissions.length ∧
     (initializeScheduler (initializeScheduler Scheduler.fresh dbC9 870)
        dbC9 870).emissions.getLast? =
       some ((initializeScheduler (initializeScheduler Scheduler.fresh dbC9
         870) dbC9 870).missed_hours_count)) :=
  C9_emission_discipline (initializeScheduler Scheduler.fresh dbC9 870)
    dbC9 870 (initializeScheduler_init Scheduler.fresh dbC9 870)

theorem dayStart_mod (t : Nat) : dayStart t % 60 = 0 := by
  unfold dayStart
  omega

theorem maxHour_eq_none (rows : List ActivityRow) :
    maxHour rows = none ↔ rows = [] := by
  cases rows with
  | nil => simp [maxHour]
  | cons r rs =>
    simp only [maxHour]
    cases maxHour rs <;> simp

theorem maxHour_mem (rows : List ActivityRow) (L : Nat)
    (h : maxHour rows = some L) : ∃ r ∈ rows, r.hour = L := by
  induction rows with
  | nil => simp [maxHour] at h
  | cons r rs ih =>
    simp only [maxHour] at h
    cases hm : maxHour rs with
    | none =>
      rw [hm] at h
      simp only [Option.some.injEq] at h
      exact ⟨r, by simp, h⟩
    | some m =>
      rw [hm] at h
      simp only [Option.some.injEq] at h
      by_cases hc : m ≤ r.hour
      · refine ⟨r, by simp, ?_⟩
        omega
      · have hm2 : maxHour rs = some L := by
          rw [hm]
          congr 1
          omega
        rcases ih hm2 with ⟨q, hq, hqh⟩
        exact ⟨q, by simp [hq], hqh⟩

theorem maxHour_ub (rows : List ActivityRow) :
    ∀ L : Nat, maxHour rows = some L → ∀ r ∈ rows, r.hour ≤ L := by
  induction rows with
  | nil =>
    intro L h q hq
    simp at hq
  | cons r rs ih =>
    intro L h q hq
    simp only [maxHour] at h
    cases hm : maxHour rs with
    | none =>
      rw [hm] at h
      simp only [Option.some.injEq] at h
      have hrs : rs = [] := (maxHour_eq_none rs).mp hm
      subst hrs
      rcases List.mem_cons.mp hq with hqr | hqs
      · subst hqr; omega
      · simp at hqs
    | some m =>
      rw [hm] at h
      simp only [Option.some.injEq] at h
      rcases List.mem_cons.mp hq with hqr | hqs
      · subst hqr; omega
      · have := ih m hm q hqs
        omega

theorem has_activity_iff_exists (db : DB) (h : Nat) :
    has_activity_for_hour db h = true ↔ ∃ r ∈ db.rows, r.hour = h := by
  unfold has_activity_for_hour
  rw [List.any_eq_true]
  constructor
  · rintro ⟨r, hr, hb⟩
    exact ⟨r, hr, by simpa using hb⟩
  · rintro ⟨r, hr, hb⟩
    exact ⟨r, hr, by simpa using hb⟩

theorem add_activity_of_not_has (db : DB) (now hour : Nat) (text : String)
    (hno : has_activity_for_hour db hour = false) :
    add_activity db now hour text =
      ⟨db.rows ++ [⟨db.nextId, now, hour, text⟩], db.nextId + 1⟩ := by
  unfold add_activity
  cases hf : db.rows.find? (fun r => r.hour == hour) with
  | some existing =>
    have h1 := List.find?_some hf
    have : has_activity_for_hour db hour = true :=
      List.any_eq_true.mpr ⟨existing, List.mem_of_find?_eq_some hf, h1⟩
    rw [this] at hno
    exact absurd hno (by simp)
  | none => rfl

theorem maxHour_append_single (rows : List ActivityRow) (r : ActivityRow) :
    maxHour (rows ++ [r]) =
      some (match maxHour rows with
            | none => r.hour
            | some m => max m r.hour) := by
  induction rows with
  | nil => rfl
  | cons q rows ih =>
    show maxHour (q :: (rows ++ [r])) = _
    simp only [maxHour, ih]
    cases hm : maxHour rows with
    | none => rfl
    | some m =>
      show some (max q.hour (max m r.hour)) = some (max (max q.hour m) r.hour)
      rw [max_assoc]

theorem has_activity_add (db : DB) (now hour : Nat) (text : String)
    (h' : Nat) :
    has_activity_for_hour (add_activity db now hour text) h' =
      (has_activity_for_hour db h' || (hour == h')) := by
  unfold add_activity
  cases hf : db.rows.find? (fun r => r.hour == hour) with
  | some existing =>
    have h1 := List.find?_some hf
    have hmem := List.mem_of_find?_eq_some hf
    dsimp only
    unfold has_activity_for_hour
    dsimp only
    rw [List.any_map]
    have hfun : ((fun r : ActivityRow => r.hour == h') ∘
        (fun r : ActivityRow =>
          if r.id == existing.id then
            { r with timestamp := now, activity := text }
          else r)) = fun r : ActivityRow => r.hour == h' := by
      funext r
      by_cases hid : r.id = existing.id <;> simp [Function.comp, hid]
    rw [hfun]
    by_cases hq : hour = h'
    · subst hq
      have hhas : db.rows.any (fun r => r.hour == hour) = true :=
        List.any_eq_true.mpr ⟨existing, hmem, h1⟩
      rw [hhas]
      simp
    · have hb : (hour == h') = false := by simpa using hq
      rw [hb]
      simp
  | none =>
    dsimp only
    unfold has_activity_for_hour
    dsimp only
    rw [List.any_append]
    simp

theorem get_last_add_of_above (db : DB) (now hour : Nat) (text : String)
    (habove : ∀ r ∈ db.rows, r.hour < hour) :
    get_last_activity_time (add_activity db now hour text) = some hour := by
  have hno : has_activity_for_hour db hour = false := by
    by_contra hne
    have : has_activity_for_hour db hour = true := by
      cases hb : has_activity_for_hour db hour
      · exact absurd hb hne
      · rfl
    rcases (has_activity_iff_exists db hour).mp this with ⟨r, hr, hh⟩
    have := habove r hr
    omega
  rw [add_activity_of_not_has db now hour text hno]
  show maxHour (db.rows ++ [⟨db.nextId, now, hour, text⟩]) = some hour
  rw [maxHour_append_single]
  cases hm : maxHour db.rows with
  | none => rfl
  | some m =>
    rcases maxHour_mem db.rows m hm with ⟨r, hr, hh⟩
    have hlt := habove r hr
    rw [hh] at hlt
    show some (max m hour) = some hour
    rw [Nat.max_eq_right (Nat.le_of_lt hlt)]

theorem record_activity_snd (s : Scheduler) (db : DB) (now h : Nat)
    (text : String) :
    (record_activity s db now [h] text).2 = add_activity db now h text := rfl

theorem record_activity_fst_init (s : Scheduler) (db : DB) (now h : Nat)
    (text : String) (hinit : s.is_initialized = true) :
    (record_activity s db now [h] text).1.is_initialized = true := by
  unfold record_activity
  dsimp only [listMax]
  apply refresh_init
  cases s.last_recorded_time with
  | none => exact hinit
  | some prev =>
    by_cases hp : h > prev
    · simp only [if_pos hp]
      exact hinit
    · simp only [if_neg hp]
      exact hinit

theorem record_activity_fst_lrt (s : Scheduler) (db : DB) (now h : Nat)
    (text : String) (hinit : s.is_initialized = true) :
    (record_activity s db now [h] text).1.last_recorded_time =
      get_last_activity_time (add_activity db now h text) := by
  unfold record_activity
  dsimp only [listMax]
  apply refresh_lrt
  cases s.last_recorded_time with
  | none => exact hinit
  | some prev =>
    by_cases hp : h > prev
    · simp only [if_pos hp]
      exact hinit
    · simp only [if_neg hp]
      exact hinit

/-- A store with a single entry at `09:00` (minute 540). -/
def dbC7pre : DB := ⟨[⟨1, 545, 540, "meeting"⟩], 2⟩

/-- A store with entries at `09:00` (540) and `11:00` (660) but none at
`10:00` (600): the spec's sibling scenario. -/
def dbC7 : DB := ⟨[⟨1, 545, 540, "meeting"⟩, ⟨2, 665, 660, "email"⟩], 3⟩

/-- C7 fails as stated, at `now = 11:30` (minute 690).  First, the frame
part: with only 09:00 recorded the reconciler reports `[10:00, 11:00]`;
recording hour 11:00 alone advances `last_recorded_time` to 11:00, so the
next result is `[]` — hour 10:00 disappeared although no entry was written
for it.  Second, the spec's scenario: with entries at 09:00 and 11:00 and a
gap at 10:00, the window starts at 12:00 and the result is `[]`, not
`[10:00]` — interior gaps below the last recorded hour are never
reported. -/
theorem C7_counterexample :
    (get_missed_hours (initializeScheduler Scheduler.fresh dbC7pre 690)
        dbC7pre 690).1 = [600, 660] ∧
    (get_missed_hours
        (record_activity (initializeScheduler Scheduler.fresh dbC7pre 690)
          dbC7pre 690 [660] "email").1
        (record_activity (initializeScheduler Scheduler.fresh dbC7pre 690)
          dbC7pre 690 [660] "email").2 690).1 = [] ∧
    has_activity_for_hour
      (record_activity (initializeScheduler Scheduler.fresh dbC7pre 690)
        dbC7pre 690 [660] "email").2 600 = false ∧
    has_activity_for_hour dbC7 540 = true ∧
    has_activity_for_hour dbC7 600 = false ∧
    has_activity_for_hour dbC7 660 = true ∧
    (get_missed_hours (initializeScheduler Scheduler.fresh dbC7 690) dbC7
        690).1 = [] := by
  refine ⟨by decide, by decide, by decide, by decide, by decide, by decide,
    by decide⟩

/-- C7 amended: on a scheduler consistent with the store, recording an
hour slot `h` inside the current reconciliation window (all hour values
hour-aligned) makes `h` leave the missed list, and for every other hour
`h'` the next result contains `h'` iff the previous result contained `h'`
and `h'` lies above the advanced window start (`h < h'`): hours of the old
window at or below `h` are dropped because `last_recorded_time` advances to
`h`, not because entries were written for them; membership of hours above
`h` is untouched. -/
theorem C7_record_activity_frame (s : Scheduler) (db : DB) (now h : Nat)
    (text : String)
    (hinit : s.is_initialized = true)
    (hcons : s.last_recorded_time = get_last_activity_time db)
    (halign : h % 60 = 0)
    (hdb : ∀ r ∈ db.rows, r.hour % 60 = 0)
    (hlo : startCheckHour s.last_recorded_time now ≤ h)
    (hhi : h ≤ floorHour now) :
    h ∈ (get_missed_hours s db now).1 ∧
    h ∉ (get_missed_hours (record_activity s db now [h] text).1
          (record_activity s db now [h] text).2 now).1 ∧
    (∀ h' : Nat, h' ≠ h →
      (h' ∈ (get_missed_hours (record_activity s db now [h] text).1
            (record_activity s db now [h] text).2 now).1 ↔
        (h' ∈ (get_missed_hours s db now).1 ∧ h < h'))) := by
  have hprev : (get_missed_hours s db now).1 =
      missedHoursFrom db (startCheckHour s.last_recorded_time now)
        (floorHour now) := by
    rw [gmh_initialized s db now hinit, core_fst]
  have hstart_mod : startCheckHour s.last_recorded_time now % 60 = 0 := by
    rw [hcons]
    cases hm : get_last_activity_time db with
    | none => exact dayStart_mod now
    | some L =>
      show (L + 60) % 60 = 0
      rcases maxHour_mem db.rows L hm with ⟨r, hr, hh⟩
      have := hdb r hr
      omega
  have habove : ∀ r ∈ db.rows, r.hour < h := by
    intro r hr
    rw [hcons] at hlo
    cases hm : get_last_activity_time db with
    | none =>
      have hemp : db.rows = [] := (maxHour_eq_none db.rows).mp hm
      rw [hemp] at hr
      simp at hr
    | some L =>
      rw [hm] at hlo
      have hub := maxHour_ub db.rows L hm r hr
      have hL : L + 60 ≤ h := hlo
      omega
  have hnohas : has_activity_for_hour db h = false := by
    cases hb : has_activity_for_hour db h
    · rfl
    · rcases (has_activity_iff_exists db h).mp hb with ⟨r, hr, hh⟩
      have := habove r hr
      omega
  have hlast' : get_last_activity_time (add_activity db now h text) =
      some h := get_last_add_of_above db now h text habove
  have hnext : (get_missed_hours (record_activity s db now [h] text).1
      (record_activity s db now [h] text).2 now).1 =
      missedHoursFrom (add_activity db now h text) (h + 60)
        (floorHour now) := by
    rw [record_activity_snd]
    rw [gmh_initialized _ _ _
      (record_activity_fst_init s db now h text hinit), core_fst]
    rw [record_activity_fst_lrt s db now h text hinit, hlast']
    rfl
  refine ⟨?_, ?_, ?_⟩
  · rw [hprev, mem_missedHoursFrom]
    exact ⟨hlo, hhi, by omega, hnohas⟩
  · rw [hnext, mem_missedHoursFrom]
    rintro ⟨hc1, _, _, _⟩
    omega
  · intro h' hne
    rw [hnext, hprev, mem_missedHoursFrom, mem_missedHoursFrom]
    have hhas' := has_activity_add db now h text h'
    have hbne : (h == h') = false := beq_eq_false_iff_ne.mpr (Ne.symm hne)
    rw [hhas', hbne, Bool.or_false]
    constructor
    · rintro ⟨c1, c2, c3, c4⟩
      exact ⟨⟨by omega, c2, by omega, c4⟩, by omega⟩
    · rintro ⟨⟨d1, d2, d3, d4⟩, hlt⟩
      exact ⟨by omega, d2, by omega, d4⟩

/-- Witness for `C7_record_activity_frame`: recording `11:00` (minute 660)
at `now = 14:30` (870) on a scheduler initialized over a store holding only
`09:00`. -/
theorem C7_record_activity_frame_witness :
    660 ∈ (get_missed_hours (initializeScheduler Scheduler.fresh dbC7pre
        870) dbC7pre 870).1 ∧
    660 ∉ (get_missed_hours
        (record_activity (initializeScheduler Scheduler.fresh dbC7pre 870)
          dbC7pre 870 [660] "lunch").1
        (record_activity (initializeScheduler Scheduler.fresh dbC7pre 870)
          dbC7pre 870 [660] "lunch").2 870).1 ∧
    (∀ h' : Nat, h' ≠ 660 →
      (h' ∈ (get_missed_hours
          (record_activity (initializeScheduler Scheduler.fresh dbC7pre
            870) dbC7pre 870 [660] "lunch").1
          (record_activity (initializeScheduler Scheduler.fresh dbC7pre
            870) dbC7pre 870 [660] "lunch").2 870).1 ↔
        (h' ∈ (get_missed_hours (initializeScheduler Scheduler.fresh
            dbC7pre 870) dbC7pre 870).1 ∧ 660 < h'))) :=
  C7_record_activity_frame (initializeScheduler Scheduler.fresh dbC7pre
      870) dbC7pre 870 660 "lunch" (by decide) (by decide) (by decide)
    (by decide) (by decide) (by decide)

/-- A row of the `daily_notes` table (`accountability/database.py`):
`date` is a day index, `notes` the text. -/
structure NoteRow where
  id : Nat
  date : Nat
  notes : String
deriving DecidableEq

/-- A store handle as the Python `Database` methods see it: the two tables
plus a health flag.  `healthy = false` models a connection whose
`cursor.execute` raises (store unreachable or corrupt); a method with no
`try/except` block then propagates the exception — modelled as
`Except.error` — while a method wrapped in `try/except` returns its
documented fallback value.  A propagated error commits nothing, so the
tables are unchanged. -/
structure Store where
  db : DB
  notes : List NoteRow
  healthy : Bool
deriving DecidableEq

/-- The exception text standing in for a raised `sqlite3` error. -/
def dbError : String := "sqlite3.OperationalError"

namespace Fallible

/-- `Database.get_last_activity_time`: the method body has no `try/except`
(`database.py:104-116`), so a failing execute propagates to the caller. -/
def get_last_activity_time (st : Store) : Except String (Option Nat) :=
  if st.healthy then .ok (Accountability.get_last_activity_time st.db)
  else .error dbError

/-- `Database.has_activity_for_hour`: no `try/except`
(`database.py:118-137`) — errors propagate. -/
def has_activity_for_hour (st : Store) (hour : Nat) : Except String Bool :=
  if st.healthy then
    .ok (Accountability.has_activity_for_hour st.db hour)
  else .error dbError

/-- `Database.add_activity`: no `try/except` (`database.py:139-185`) — a
failing write propagates; the transaction never commits, so the caller's
store is unchanged. -/
def add_activity (st : Store) (now hour : Nat) (text : String) :
    Except String Store :=
  if st.healthy then
    .ok { st with db := Accountability.add_activity st.db now hour text }
  else .error dbError

/-- `Database.get_daily_note`: wrapped in `try/except`
(`database.py:483-510`), returning `""` on any persistence error and when
no note exists. -/
def get_daily_note (st : Store) (date : Nat) : String :=
  if st.healthy then
    match st.notes.find? (fun n => n.date == date) with
    | some n => n.notes
    | none => ""
  else ""

/-- `Database.get_notes_for_date_range`: wrapped in `try/except`
(`database.py:512-544`), returning the empty dictionary on any persistence
error. -/
def get_notes_for_date_range (st : Store) (startDate endDate : Nat) :
    List (Nat × String) :=
  if st.healthy then
    (st.notes.filter (fun n =>
        decide (startDate ≤ n.date) && decide (n.date ≤ endDate))).map
      (fun n => (n.date, n.notes))
  else []

end Fallible

/-- A failing store holding one activity at `09:00` and one daily note. -/
def brokenStore : Store :=
  ⟨⟨[⟨1, 545, 540, "meeting"⟩], 2⟩, [⟨1, 0, "a note"⟩], false⟩

/-- C8 fails as stated: the activity-store read operations
`get_last_activity_time` (the spec's `last_recorded_hour`) and
`has_activity_for_hour` (the spec's `has_entry`) have no `try/except`, so
on a failing store they propagate the error instead of returning a safe
default. -/
theorem C8_counterexample :
    Fallible.get_last_activity_time brokenStore = Except.error dbError ∧
    Fallible.has_activity_for_hour brokenStore 540 =
      Except.error dbError := ⟨rfl, rfl⟩

/-- C8 amended: on a failing store only the daily-note reads return safe
defaults (`""` and the empty dictionary); the activity reads
`get_last_activity_time` and `has_activity_for_hour` propagate the error
just like the write path `add_activity`.  A failed `add_activity` commits
nothing, so after the connection recovers the hour is still missing. -/
theorem C8_error_policy (st : Store) (d d1 d2 now h : Nat) (text : String)
    (hbad : st.healthy = false) :
    Fallible.get_daily_note st d = "" ∧
    Fallible.get_notes_for_date_range st d1 d2 = [] ∧
    Fallible.get_last_activity_time st = Except.error dbError ∧
    Fallible.has_activity_for_hour st h = Except.error dbError ∧
    Fallible.add_activity st now h text = Except.error dbError ∧
    (has_activity_for_hour st.db h = false →
      Fallible.has_activity_for_hour { st with healthy := true } h =
        Except.ok false) := by
  refine ⟨?_, ?_, ?_, ?_, ?_, ?_⟩
  · simp [Fallible.get_daily_note, hbad]
  · simp [Fallible.get_notes_for_date_range, hbad]
  · simp [Fallible.get_last_activity_time, hbad]
  · simp [Fallible.has_activity_for_hour, hbad]
  · simp [Fallible.add_activity, hbad]
  · intro hno
    simp [Fallible.has_activity_for_hour, hno]

/-- Witness for `C8_error_policy` on `brokenStore`. -/
theorem C8_error_policy_witness :
    Fallible.get_daily_note brokenStore 0 = "" ∧
    Fallible.get_notes_for_date_range brokenStore 0 3 = [] ∧
    Fallible.get_last_activity_time brokenStore = Except.error dbError ∧
    Fallible.has_activity_for_hour brokenStore 600 = Except.error dbError ∧
    Fallible.add_activity brokenStore 605 600 "coding" =
      Except.error dbError ∧
    (has_activity_for_hour brokenStore.db 600 = false →
      Fallible.has_activity_for_hour { brokenStore with healthy := true }
        600 = Except.ok false) :=
  C8_error_policy brokenStore 0 0 3 605 600 "coding" rfl

/-- A row of the `analysis_results` table (`accountability/ai_analysis.py`):
the label `date_range`, the resolved `start_date`/`end_date`, the stored
result (represented by its `summary`), and `created_at`. -/
structure AnalysisRow where
  id : Nat
  date_range : String
  start_date : Nat
  end_date : Nat
  summary : String
  created_at : Nat
deriving DecidableEq

/-- The `analysis_results` table with its AUTOINCREMENT counter. -/
structure AnalysisCache where
  rows : List AnalysisRow
  nextId : Nat
deriving DecidableEq

/-- An empty analysis cache. -/
def emptyCache : AnalysisCache := ⟨[], 1⟩

/-- Python `sorted` over hour values, via insertion. -/
def insertSorted (x : Nat) : List Nat → List Nat
  | [] => [x]
  | y :: ys => if x ≤ y then x :: y :: ys else y :: insertSorted x ys

/-- Python `sorted(valid_activities, key=...)` restricted to the hour
values, which is all `_get_date_range_bounds` reads from it. -/
def sortTimes : List Nat → List Nat
  | [] => []
  | x :: xs => insertSorted x (sortTimes xs)

/-- The label table at the end of `AIAnalyzer._get_date_range_bounds`.
This code is unreachable — when the valid activities are non-empty their
sorted list is non-empty and the method returns earlier — but it is
embedded faithfully. -/
def fallbackBounds (now : Nat) (dateRange : String) : Nat × Nat :=
  if dateRange == "Today" then (dayStart now, now)
  else if dateRange == "Yesterday" then
    (dayStart (now - 1440), dayStart (now - 1440) + 1439)
  else if dateRange == "Last 3 Days" then (dayStart (now - 3 * 1440), now)
  else if dateRange == "Last Week" then (dayStart (now - 7 * 1440), now)
  else if dateRange == "Last Month" then (dayStart (now - 30 * 1440), now)
  else (dayStart (now - 1440), now)

/-- `AIAnalyzer._get_date_range_bounds(date_range, activities)`.  An
activity is represented by its `"hour"` value, `none` when the key is
missing or holds `None`.  `replace(hour=23, minute=59, second=59,
microsecond=999999)` truncates to minute `1439` of the day at this model's
minute resolution. -/
def get_date_range_bounds (now : Nat) (dateRange : String)
    (activities : List (Option Nat)) : Nat × Nat :=
  if activities.isEmpty then (dayStart now, dayStart now + 1439)
  else
    let valid := activities.filterMap id
    if valid.isEmpty then (dayStart now, dayStart now + 1439)
    else
      match sortTimes valid with
      | first :: rest =>
        (dayStart first,
          dayStart ((first :: rest).getLast (List.cons_ne_nil first rest))
            + 1439)
      | [] => fallbackBounds now dateRange

/-- `ORDER BY created_at DESC LIMIT 1` over a list of rows: the row with
the greatest `created_at` (ties resolved arbitrarily by SQLite; this model
keeps the earliest, and every theorem below only relies on strictly
distinct `created_at` values). -/
def latestByCreated : List AnalysisRow → Option AnalysisRow
  | [] => none
  | r :: rs =>
    match latestByCreated rs with
    | none => some r
    | some best =>
      if best.created_at > r.created_at then some best else some r

/-- `AIAnalyzer.get_saved_analysis(date_range, activities)`: the date
bounds are resolved but the query then filters on `date_range = ?` alone
(`ai_analysis.py:239-245`), returning the most recently created matching
row. -/
def get_saved_analysis (c : AnalysisCache) (now : Nat) (dateRange : String)
    (activities : List (Option Nat)) : Option AnalysisRow :=
  let _bounds := get_date_range_bounds now dateRange activities
  latestByCreated (c.rows.filter (fun r => r.date_range == dateRange))

/-- `AIAnalyzer.save_analysis(result, date_range, activities)` at time
`now`: resolve the bounds, then `INSERT OR REPLACE` with a NULL `id` —
which always inserts a fresh row. -/
def save_analysis (c : AnalysisCache) (now : Nat) (dateRange : String)
    (activities : List (Option Nat)) (summary : String) : AnalysisCache :=
  let bounds := get_date_range_bounds now dateRange activities
  { rows := c.rows ++
      [⟨c.nextId, dateRange, bounds.1, bounds.2, summary, now⟩],
    nextId := c.nextId + 1 }

theorem latestByCreated_append (l : List AnalysisRow) (x : AnalysisRow)
    (h : ∀ r ∈ l, r.created_at < x.created_at) :
    latestByCreated (l ++ [x]) = some x := by
  induction l with
  | nil => rfl
  | cons r l ih =>
    have hr : r.created_at < x.created_at := h r (by simp)
    have hl : ∀ q ∈ l, q.created_at < x.created_at :=
      fun q hq => h q (by simp [hq])
    show latestByCreated (r :: (l ++ [x])) = some x
    simp only [latestByCreated, ih hl]
    rw [if_pos hr]

/-- C10 fails as stated: `get_saved_analysis` matches on the label alone.
Storing a result for label "Today" with an activity on day 0 and then
looking up "Today" with an activity on day 1 resolves a *different*
`(start, end)` key, yet the lookup still returns the stored result instead
of absent. -/
theorem C10_counterexample :
    (get_saved_analysis
        (save_analysis emptyCache 100000 "Today" [some 600] "day one")
        100100 "Today" [some 2040]).map (fun r => r.summary) =
      some "day one" ∧
    get_date_range_bounds 100100 "Today" [some 600] ≠
      get_date_range_bounds 100100 "Today" [some 2040] := by
  refine ⟨by decide, by decide⟩

/-- C10 amended: `store` immediately followed by `lookup` with the same
label returns the stored result for *any* activity set — the lookup keys
on the label alone, not on the three-component `(label, start, end)` key —
and a lookup with a different label (one no cached row carries) returns
absent. -/
theorem C10_cache_lookup_by_label (c : AnalysisCache) (now now2 : Nat)
    (label label2 : String) (actsS actsL actsL2 : List (Option Nat))
    (summary : String)
    (hfresh : ∀ r ∈ c.rows, r.created_at < now)
    (hne : label2 ≠ label)
    (habsent : ∀ r ∈ c.rows, r.date_range ≠ label2) :
    (get_saved_analysis (save_analysis c now label actsS summary) now2
        label actsL).map (fun r => r.summary) = some summary ∧
    get_saved_analysis (save_analysis c now label actsS summary) now2
      label2 actsL2 = none := by
  constructor
  · unfold get_saved_analysis save_analysis
    dsimp only
    rw [List.filter_append]
    rw [show (([⟨c.nextId, label, (get_date_range_bounds now label
        actsS).1, (get_date_range_bounds now label actsS).2, summary,
        now⟩] : List AnalysisRow).filter
          (fun r => r.date_range == label)) =
        [⟨c.nextId, label, (get_date_range_bounds now label actsS).1,
          (get_date_range_bounds now label actsS).2, summary, now⟩]
      from by simp]
    rw [latestByCreated_append]
    · rfl
    · intro r hr
      exact hfresh r (List.mem_of_mem_filter hr)
  · unfold get_saved_analysis save_analysis
    dsimp only
    rw [List.filter_append]
    have h1 : c.rows.filter (fun r => r.date_range == label2) = [] := by
      rw [List.filter_eq_nil_iff]
      intro r hr
      simpa using habsent r hr
    have h2 : (([⟨c.nextId, label, (get_date_range_bounds now label
        actsS).1, (get_date_range_bounds now label actsS).2, summary,
        now⟩] : List AnalysisRow).filter
          (fun r => r.date_range == label2)) = [] := by
      simp
      exact fun e => hne e.symm
    rw [h1, h2]
    rfl

/-- Witness for `C10_cache_lookup_by_label` on the empty cache. -/
theorem C10_cache_lookup_by_label_witness :
    (get_saved_analysis (save_analysis emptyCache 100 "Today" [some 600]
        "worked") 200 "Today" [some 2040]).map (fun r => r.summary) =
      some "worked" ∧
    get_saved_analysis (save_analysis emptyCache 100 "Today" [some 600]
      "worked") 200 "Last Week" [] = none :=
  C10_cache_lookup_by_label emptyCache 100 200 "Today" "Last Week"
    [some 600] [some 2040] [] "worked" (by simp [emptyCache])
    (by decide) (by simp [emptyCache])

end Accountability
